import Mathlib

/-!
Verification of the stream-analytics core of the indabananamarket repository.

The development shallowly embeds, over exact arithmetic (prices as rationals,
volumes as natural numbers or integers, Python NaN as `Option.none`):

* `VolumetricCandleBuilder.add_tick` from
  `attached_assets/volumetric_candles_1761414198398.py` (recursion on the
  overflow volume is modelled with explicit fuel, so that divergence of the
  Python recursion is observable as fuel exhaustion);
* `VWAPCalculator` (`add_bar`, `calculate_vwap`, `calculate_std_dev`) from
  `attached_assets/vwap_calculator_1761414198398.py`, with Python
  `round(x, 2)` modelled as round-half-to-even at two decimals of the exact
  value, and `np.sqrt` as `Real.sqrt`;
* the tick-forwarding and portfolio-update sanity checks from
  `ibkr_bridge_REAL_TIME_LEVEL2.py` (`forward_tick`) and
  `server/ibkr_bridge_local.py` (`_forward_portfolio_update`).
-/

/-- OHLCV candle record, after `VolumetricCandle` in
`volumetric_candles_1761414198398.py`.  The source field `open` is a Lean
keyword and is rendered here as `open_price`; timestamps are abstract
instants modelled as naturals. -/
structure VolumetricCandle where
  open_price : ℚ
  high : ℚ
  low : ℚ
  close : ℚ
  volume : Nat
  timestamp_open : Nat
  timestamp_close : Nat
  ticks_count : Nat
deriving DecidableEq

/-- Mutable state of `VolumetricCandleBuilder` (volumetric_candles, lines
42-52).  A `None` field of the Python object is `Option.none`.  Tick volumes
are natural numbers: the claims under verification only concern non-negative
volumes, on which Python integer arithmetic and `Nat` agree (the one
subtraction, `accumulated_volume - volume_target`, is evaluated only under
`accumulated_volume >= volume_target`). -/
structure VolumetricCandleBuilder where
  volume_target : Nat
  accumulated_volume : Nat
  current_candle_open : Option ℚ
  current_candle_high : Option ℚ
  current_candle_low : Option ℚ
  current_candle_close : Option ℚ
  timestamp_open : Option Nat
  timestamp_close : Option Nat
  ticks_count : Nat
  completed_candles : List VolumetricCandle
deriving DecidableEq

/-- The freshly constructed builder (`__init__`, lines 34-52). -/
def VolumetricCandleBuilder.init (volume_target : Nat) : VolumetricCandleBuilder where
  volume_target := volume_target
  accumulated_volume := 0
  current_candle_open := none
  current_candle_high := none
  current_candle_low := none
  current_candle_close := none
  timestamp_open := none
  timestamp_close := none
  ticks_count := 0
  completed_candles := []

/-- Lines 71-79 of `add_tick`: the first tick of a candle seeds OHLC with the
tick price and zeroes the accumulator and the tick counter. -/
def seedIfEmpty (b : VolumetricCandleBuilder) (price : ℚ) (ts : Nat) :
    VolumetricCandleBuilder :=
  if b.current_candle_open = none then
    { b with
      current_candle_open := some price
      current_candle_high := some price
      current_candle_low := some price
      current_candle_close := some price
      timestamp_open := some ts
      accumulated_volume := 0
      ticks_count := 0 }
  else b

/-- Lines 81-87 of `add_tick`: update OHLC, accumulate the volume, count the
tick, stamp the close time.  (At every use site the OHLC fields are already
populated by `seedIfEmpty`, so the `getD` defaults are never exercised.) -/
def applyTick (b : VolumetricCandleBuilder) (price : ℚ) (volume : Nat) (ts : Nat) :
    VolumetricCandleBuilder :=
  { b with
    current_candle_high := some (max (b.current_candle_high.getD price) price)
    current_candle_low := some (min (b.current_candle_low.getD price) price)
    current_candle_close := some price
    accumulated_volume := b.accumulated_volume + volume
    ticks_count := b.ticks_count + 1
    timestamp_close := some ts }

/-- Lines 91-100 of `add_tick`: the candle built from the current state when
the target is reached. -/
def makeCandle (b : VolumetricCandleBuilder) (price : ℚ) (ts : Nat) :
    VolumetricCandle where
  open_price := b.current_candle_open.getD price
  high := b.current_candle_high.getD price
  low := b.current_candle_low.getD price
  close := b.current_candle_close.getD price
  volume := b.accumulated_volume
  timestamp_open := b.timestamp_open.getD ts
  timestamp_close := b.timestamp_close.getD ts
  ticks_count := b.ticks_count

/-- Lines 102-112 of `add_tick`: append the emitted candle to the history and
reset the in-progress state (the Python reset clears everything except
`timestamp_close`). -/
def resetAfterEmit (b : VolumetricCandleBuilder) (candle : VolumetricCandle) :
    VolumetricCandleBuilder :=
  { b with
    completed_candles := b.completed_candles ++ [candle]
    current_candle_open := none
    current_candle_high := none
    current_candle_low := none
    current_candle_close := none
    accumulated_volume := 0
    ticks_count := 0
    timestamp_open := none }

/-- `VolumetricCandleBuilder.add_tick` (lines 56-120), with explicit fuel for
the self-call on the excess volume (line 116).  `none` means the Python
recursion would run deeper than the supplied fuel; `some (b, out)` is the
updated builder together with the returned value (`out = none` is Python's
`return None`). -/
def addTickF : Nat → VolumetricCandleBuilder → ℚ → Nat → Nat →
    Option (VolumetricCandleBuilder × Option VolumetricCandle)
  | 0, _, _, _, _ => none
  | fuel + 1, b, price, volume, ts =>
    let b2 := applyTick (seedIfEmpty b price ts) price volume ts
    if b2.volume_target ≤ b2.accumulated_volume then
      let candle := makeCandle b2 price ts
      let excess_volume := b2.accumulated_volume - b2.volume_target
      let b3 := resetAfterEmit b2 candle
      if 0 < excess_volume then addTickF fuel b3 price excess_volume ts
      else some (b3, some candle)
    else some (b2, none)

/-- Total version of `add_tick`: fuel `accumulated_volume + volume + 1` is
proved sufficient below whenever `volume_target >= 1`, so on those inputs this
is exactly the Python function; on a zero target (where the Python code can
recurse forever) the fallback leaves the builder unchanged. -/
def add_tick (b : VolumetricCandleBuilder) (price : ℚ) (volume : Nat) (ts : Nat) :
    VolumetricCandleBuilder × Option VolumetricCandle :=
  (addTickF (b.accumulated_volume + volume + 1) b price volume ts).getD (b, none)

/-- Feed a finite tick sequence `(price, volume, timestamp)` through the
builder, call by call. -/
def processTicks (b : VolumetricCandleBuilder) : List (ℚ × Nat × Nat) →
    VolumetricCandleBuilder
  | [] => b
  | (p, v, ts) :: rest => processTicks (add_tick b p v ts).1 rest

/-- Total tick volume of a sequence of `(price, volume, timestamp)` ticks. -/
def ticksVolume (ticks : List (ℚ × Nat × Nat)) : Nat :=
  (ticks.map (fun x => x.2.1)).sum

/-- Sum of the recorded volumes of a candle list. -/
def candleVolumeSum (l : List VolumetricCandle) : Nat :=
  (l.map (fun c => c.volume)).sum

/-- Sum of the overflow excesses (recorded volume minus target) of a candle
list. -/
def candleExcessSum (target : Nat) (l : List VolumetricCandle) : Nat :=
  (l.map (fun c => c.volume - target)).sum

/-- Well-formedness of an emitted candle: OHLC bounds and the volume-target
lower bound (the conjunction asserted by the spec for completed candles). -/
def CandleOK (target : Nat) (c : VolumetricCandle) : Prop :=
  c.low ≤ c.open_price ∧ c.open_price ≤ c.high ∧ c.low ≤ c.close ∧ c.close ≤ c.high ∧
    target ≤ c.volume

/-- Well-formedness of the in-progress candle state: the four OHLC fields are
populated together, and when populated they satisfy the OHLC bounds. -/
def CurrentOK (b : VolumetricCandleBuilder) : Prop :=
  (b.current_candle_open = none ∧ b.current_candle_high = none ∧
    b.current_candle_low = none ∧ b.current_candle_close = none) ∨
  (∃ o hi lo cl, b.current_candle_open = some o ∧ b.current_candle_high = some hi ∧
    b.current_candle_low = some lo ∧ b.current_candle_close = some cl ∧
    lo ≤ o ∧ o ≤ hi ∧ lo ≤ cl ∧ cl ≤ hi)

/-- State of `VWAPCalculator` (vwap_calculator_1761414198398.py, lines 14-24):
the lookback bound and the two rolling histories.  Prices are rationals,
volumes integers (Python `int`). -/
structure VWAPCalculator where
  lookback_periods : Nat
  price_history : List ℚ
  volume_history : List ℤ
deriving DecidableEq

/-- The freshly constructed calculator (`__init__`). -/
def VWAPCalculator.init (lookback_periods : Nat) : VWAPCalculator where
  lookback_periods := lookback_periods
  price_history := []
  volume_history := []

/-- `add_bar` (lines 26-40): append the sample to both histories, then drop
the oldest entry of each (`pop(0)`) when the price history exceeds the
lookback bound. -/
def add_bar (s : VWAPCalculator) (price : ℚ) (volume : ℤ) : VWAPCalculator :=
  let ph := s.price_history ++ [price]
  let vh := s.volume_history ++ [volume]
  if s.lookback_periods < ph.length then
    { s with price_history := ph.tail, volume_history := vh.tail }
  else
    { s with price_history := ph, volume_history := vh }

/-- Feed a finite bar sequence `(price, volume)` through `add_bar`. -/
def processBars (s : VWAPCalculator) (bars : List (ℚ × ℤ)) : VWAPCalculator :=
  bars.foldl (fun t pv => add_bar t pv.1 pv.2) s

/-- `np.sum(np.array(price_history) * np.array(volume_history))`:
elementwise product over the paired histories (line 53). -/
def tpv (s : VWAPCalculator) : ℚ :=
  ((s.price_history.zip s.volume_history).map (fun pv => pv.1 * (pv.2 : ℚ))).sum

/-- `np.sum(self.volume_history)` (line 54). -/
def total_volume (s : VWAPCalculator) : ℤ := s.volume_history.sum

/-- Round half to even to an integer: the semantics of Python's `round`
applied to the exact value. -/
def rhe (q : ℚ) : ℤ :=
  if q - ⌊q⌋ < 1 / 2 then ⌊q⌋
  else if 1 / 2 < q - ⌊q⌋ then ⌊q⌋ + 1
  else if 2 ∣ ⌊q⌋ then ⌊q⌋ else ⌊q⌋ + 1

/-- Python `round(x, 2)` on the exact rational value. -/
def round2 (q : ℚ) : ℚ := (rhe (q * 100) : ℚ) / 100

/-- `calculate_vwap` (lines 42-60). -/
def calculate_vwap (s : VWAPCalculator) : Option ℚ :=
  if s.price_history.length = 0 then none
  else if total_volume s = 0 then none
  else some (round2 (tpv s / (total_volume s : ℚ)))

/-- Round half to even on a real number (needed after the irrational square
root). -/
noncomputable def rheR (x : ℝ) : ℤ :=
  if x - ⌊x⌋ < 1 / 2 then ⌊x⌋
  else if 1 / 2 < x - ⌊x⌋ then ⌊x⌋ + 1
  else if 2 ∣ ⌊x⌋ then ⌊x⌋ else ⌊x⌋ + 1

/-- Python `round(x, 2)` on an exact real value. -/
noncomputable def round2R (x : ℝ) : ℝ := (rheR (x * 100) : ℝ) / 100

/-- `np.sum(volumes * (prices - m) ** 2)`: the volume-weighted sum of squared
deviations of the prices from `m` (line 82). -/
def sqDevSum (s : VWAPCalculator) (m : ℚ) : ℚ :=
  ((s.price_history.zip s.volume_history).map
    (fun pv => (pv.2 : ℚ) * (pv.1 - m) ^ 2)).sum

/-- `calculate_std_dev` (lines 62-85).  Note that on line 73 the code takes
`vwap = self.calculate_vwap()`, i.e. the 2-decimal ROUNDED vwap, and uses it
inside the variance on line 82. -/
noncomputable def calculate_std_dev (s : VWAPCalculator) : Option ℝ :=
  if s.price_history.length < 2 then none
  else
    match calculate_vwap s with
    | none => none
    | some vwap =>
      some (round2R (Real.sqrt ((sqDevSum s vwap / (total_volume s : ℚ) : ℚ) : ℝ)))

/-- The claim's reading of `calculate_std_dev`: identical except that the
vwap inside the variance is the full-precision `tpv/total` (rounding applied
only to the output).  Stated for comparison with the code's definition. -/
noncomputable def std_dev_full_precision (s : VWAPCalculator) : Option ℝ :=
  if s.price_history.length < 2 then none
  else if total_volume s = 0 then none
  else
    some (round2R (Real.sqrt
      ((sqDevSum s (tpv s / (total_volume s : ℚ)) / (total_volume s : ℚ) : ℚ) : ℝ)))

/-- The fields of an `ib_insync` ticker read by `forward_tick`
(ibkr_bridge_REAL_TIME_LEVEL2.py, lines 187-213).  A NaN float is `none`. -/
structure Ticker where
  last : Option ℚ
  close : Option ℚ
  bid : Option ℚ
  ask : Option ℚ
  bid_size : Option ℤ
  ask_size : Option ℤ
  volume : Option ℤ
deriving DecidableEq

/-- The `market_data` payload built by `forward_tick`. -/
structure MarketDataMsg where
  last_price : ℚ
  bid : Option ℚ
  ask : Option ℚ
  bid_size : Option ℤ
  ask_size : Option ℤ
  volume : Option ℤ
deriving DecidableEq

/-- `forward_tick` (lines 187-213): fall back from `last` to `close`, drop
the tick only when neither is a valid (non-NaN) price, otherwise forward the
payload.  `none` is a dropped tick. -/
def forward_tick (t : Ticker) : Option MarketDataMsg :=
  let last_price := if t.last.isSome then t.last else t.close
  match last_price with
  | none => none
  | some lp =>
    some { last_price := lp, bid := t.bid, ask := t.ask,
           bid_size := t.bid_size, ask_size := t.ask_size, volume := t.volume }

/-- The `portfolio_update` payload built by `_forward_portfolio_update`. -/
structure PortfolioUpdateMsg where
  contracts : ℤ
  entry_price : ℚ
  unrealized_pnl : ℚ
  market_price : ℚ
deriving DecidableEq

/-- `_forward_portfolio_update` (server/ibkr_bridge_local.py, lines 366-410):
the two entry-price sanity checks.  `entry_price = none` is Python `None`;
Python truthiness of `self.entry_price` is `isSome` and nonzero.  A `none`
result is a blocked (not sent) update. -/
def forward_portfolio_update (entry_price : Option ℚ) (last_price : ℚ)
    (current_position : ℤ) (unrealized_pnl : ℚ) : Option PortfolioUpdateMsg :=
  let market_price := if 0 < last_price then last_price else entry_price.getD 0
  let truthy := match entry_price with
    | some e => decide (e ≠ 0)
    | none => false
  if truthy then
    let e := entry_price.getD 0
    if e < 1000 ∨ 15000 < e then none
    else if 0 < market_price ∧ (3 < |e / market_price| ∨ |e / market_price| < 33 / 100)
      then none
    else
      some { contracts := current_position, entry_price := e,
             unrealized_pnl := unrealized_pnl, market_price := market_price }
  else
    some { contracts := current_position, entry_price := 0,
           unrealized_pnl := unrealized_pnl, market_price := market_price }

@[simp] theorem applyTick_volume_target (b : VolumetricCandleBuilder) (p : ℚ) (v ts : Nat) :
    (applyTick b p v ts).volume_target = b.volume_target := rfl

@[simp] theorem applyTick_accumulated_volume (b : VolumetricCandleBuilder) (p : ℚ) (v ts : Nat) :
    (applyTick b p v ts).accumulated_volume = b.accumulated_volume + v := rfl

@[simp] theorem applyTick_completed_candles (b : VolumetricCandleBuilder) (p : ℚ) (v ts : Nat) :
    (applyTick b p v ts).completed_candles = b.completed_candles := rfl

@[simp] theorem applyTick_open (b : VolumetricCandleBuilder) (p : ℚ) (v ts : Nat) :
    (applyTick b p v ts).current_candle_open = b.current_candle_open := rfl

@[simp] theorem applyTick_high (b : VolumetricCandleBuilder) (p : ℚ) (v ts : Nat) :
    (applyTick b p v ts).current_candle_high
      = some (max (b.current_candle_high.getD p) p) := rfl

@[simp] theorem applyTick_low (b : VolumetricCandleBuilder) (p : ℚ) (v ts : Nat) :
    (applyTick b p v ts).current_candle_low
      = some (min (b.current_candle_low.getD p) p) := rfl

@[simp] theorem applyTick_close (b : VolumetricCandleBuilder) (p : ℚ) (v ts : Nat) :
    (applyTick b p v ts).current_candle_close = some p := rfl

@[simp] theorem resetAfterEmit_volume_target (b : VolumetricCandleBuilder) (c : VolumetricCandle) :
    (resetAfterEmit b c).volume_target = b.volume_target := rfl

@[simp] theorem resetAfterEmit_accumulated_volume (b : VolumetricCandleBuilder)
    (c : VolumetricCandle) : (resetAfterEmit b c).accumulated_volume = 0 := rfl

@[simp] theorem resetAfterEmit_completed_candles (b : VolumetricCandleBuilder)
    (c : VolumetricCandle) :
    (resetAfterEmit b c).completed_candles = b.completed_candles ++ [c] := rfl

@[simp] theorem resetAfterEmit_open (b : VolumetricCandleBuilder) (c : VolumetricCandle) :
    (resetAfterEmit b c).current_candle_open = none := rfl

@[simp] theorem resetAfterEmit_high (b : VolumetricCandleBuilder) (c : VolumetricCandle) :
    (resetAfterEmit b c).current_candle_high = none := rfl

@[simp] theorem resetAfterEmit_low (b : VolumetricCandleBuilder) (c : VolumetricCandle) :
    (resetAfterEmit b c).current_candle_low = none := rfl

@[simp] theorem resetAfterEmit_close (b : VolumetricCandleBuilder) (c : VolumetricCandle) :
    (resetAfterEmit b c).current_candle_close = none := rfl

@[simp] theorem makeCandle_volume (b : VolumetricCandleBuilder) (p : ℚ) (ts : Nat) :
    (makeCandle b p ts).volume = b.accumulated_volume := rfl

@[simp] theorem makeCandle_open_price (b : VolumetricCandleBuilder) (p : ℚ) (ts : Nat) :
    (makeCandle b p ts).open_price = b.current_candle_open.getD p := rfl

@[simp] theorem makeCandle_high (b : VolumetricCandleBuilder) (p : ℚ) (ts : Nat) :
    (makeCandle b p ts).high = b.current_candle_high.getD p := rfl

@[simp] theorem makeCandle_low (b : VolumetricCandleBuilder) (p : ℚ) (ts : Nat) :
    (makeCandle b p ts).low = b.current_candle_low.getD p := rfl

@[simp] theorem makeCandle_close (b : VolumetricCandleBuilder) (p : ℚ) (ts : Nat) :
    (makeCandle b p ts).close = b.current_candle_close.getD p := rfl

theorem seedIfEmpty_of_none {b : VolumetricCandleBuilder} (p : ℚ) (ts : Nat)
    (h : b.current_candle_open = none) :
    seedIfEmpty b p ts =
      { b with
        current_candle_open := some p
        current_candle_high := some p
        current_candle_low := some p
        current_candle_close := some p
        timestamp_open := some ts
        accumulated_volume := 0
        ticks_count := 0 } := by
  simp [seedIfEmpty, h]

theorem seedIfEmpty_of_some {b : VolumetricCandleBuilder} (p : ℚ) (ts : Nat)
    (h : b.current_candle_open ≠ none) : seedIfEmpty b p ts = b := by
  simp [seedIfEmpty, h]

@[simp] theorem seedIfEmpty_volume_target (b : VolumetricCandleBuilder) (p : ℚ) (ts : Nat) :
    (seedIfEmpty b p ts).volume_target = b.volume_target := by
  unfold seedIfEmpty; split <;> rfl

@[simp] theorem seedIfEmpty_completed_candles (b : VolumetricCandleBuilder) (p : ℚ) (ts : Nat) :
    (seedIfEmpty b p ts).completed_candles = b.completed_candles := by
  unfold seedIfEmpty; split <;> rfl

theorem seedIfEmpty_accumulated_volume {b : VolumetricCandleBuilder} (p : ℚ) (ts : Nat)
    (h0 : b.current_candle_open = none → b.accumulated_volume = 0) :
    (seedIfEmpty b p ts).accumulated_volume = b.accumulated_volume := by
  unfold seedIfEmpty; split
  · next hop => simpa using (h0 hop).symm
  · rfl

theorem seedIfEmpty_open_ne_none (b : VolumetricCandleBuilder) (p : ℚ) (ts : Nat) :
    (seedIfEmpty b p ts).current_candle_open ≠ none := by
  unfold seedIfEmpty; split
  · simp
  · next h => exact h

theorem seedIfEmpty_acc_le (b : VolumetricCandleBuilder) (p : ℚ) (ts : Nat) :
    (seedIfEmpty b p ts).accumulated_volume ≤ b.accumulated_volume := by
  unfold seedIfEmpty; split
  · simp
  · exact le_refl _

@[simp] theorem candleVolumeSum_append (l₁ l₂ : List VolumetricCandle) :
    candleVolumeSum (l₁ ++ l₂) = candleVolumeSum l₁ + candleVolumeSum l₂ := by
  simp [candleVolumeSum]

@[simp] theorem candleExcessSum_append (t : Nat) (l₁ l₂ : List VolumetricCandle) :
    candleExcessSum t (l₁ ++ l₂) = candleExcessSum t l₁ + candleExcessSum t l₂ := by
  simp [candleExcessSum]

/-- Fuel `accumulated_volume + volume + 1` always suffices for `addTickF`
when the volume target is at least one. -/
theorem addTickF_isSome (fuel : Nat) :
    ∀ (b : VolumetricCandleBuilder) (p : ℚ) (v ts : Nat),
      1 ≤ b.volume_target →
      b.accumulated_volume + v < fuel →
      (addTickF fuel b p v ts).isSome := by
  induction fuel with
  | zero => intro b p v ts _ hlt; omega
  | succ n ih =>
    intro b p v ts hT hlt
    rw [addTickF]
    simp only []
    split
    · next hc1 =>
      split
      · next hc2 =>
        apply ih
        · simpa using hT
        · have hA := seedIfEmpty_acc_le b p ts
          simp only [applyTick_volume_target, applyTick_accumulated_volume,
            seedIfEmpty_volume_target] at hc1 hc2 ⊢
          simp only [resetAfterEmit_accumulated_volume]
          omega
      · simp
    · simp

/-- A successful `addTickF` run is insensitive to extra fuel. -/
theorem addTickF_mono (fuel : Nat) :
    ∀ (fuel' : Nat) (b : VolumetricCandleBuilder) (p : ℚ) (v ts : Nat)
      (r : VolumetricCandleBuilder × Option VolumetricCandle),
      addTickF fuel b p v ts = some r → fuel ≤ fuel' →
      addTickF fuel' b p v ts = some r := by
  induction fuel with
  | zero => intro fuel' b p v ts r h _; simp [addTickF] at h
  | succ n ih =>
    intro fuel' b p v ts r h hle
    obtain ⟨m, rfl⟩ : ∃ m, fuel' = m + 1 := ⟨fuel' - 1, by omega⟩
    rw [addTickF] at h ⊢
    simp only [] at h ⊢
    split at h
    · next hc1 =>
      rw [if_pos hc1]
      split at h
      · next hc2 =>
        rw [if_pos hc2]
        exact ih m _ p _ ts r h (by omega)
      · next hc2 => rw [if_neg hc2]; exact h
    · next hc1 => rw [if_neg hc1]; exact h

/-- Arithmetic lemma: when the running total is a positive multiple of the
target strictly above it, the leftover after one completion is still at least
the target. -/
theorem target_le_sub {T m : Nat} (h2 : m % T = 0) (h3 : 0 < m - T) : T ≤ m - T := by
  obtain ⟨k, rfl⟩ := Nat.dvd_of_mod_eq_zero h2
  match k with
  | 0 => simp at h3
  | 1 => simp at h3
  | k + 2 =>
    have h5 : T * 2 ≤ T * (k + 2) := Nat.mul_le_mul_left T (by omega)
    have h6 : T * 2 - T ≤ T * (k + 2) - T := Nat.sub_le_sub_right h5 T
    have h7 : T * 2 - T = T := by omega
    rw [h7] at h6
    exact h6

/-- Behaviour of one (possibly self-recursive) `add_tick` call: the target is
unchanged; the accumulator and the number of completed candles evolve by
Euclidean division of the running total by the target; the candle history only
grows; recorded candle volume is conserved up to the double-counted overflow
excesses; and the call returns a candle exactly when the running total lands
on a positive multiple of the target. -/
theorem addTickF_spec (fuel : Nat) :
    ∀ (b b' : VolumetricCandleBuilder) (p : ℚ) (v ts : Nat)
      (out : Option VolumetricCandle),
      1 ≤ b.volume_target →
      (b.current_candle_open = none → b.accumulated_volume = 0) →
      addTickF fuel b p v ts = some (b', out) →
      b'.volume_target = b.volume_target ∧
      b'.accumulated_volume = (b.accumulated_volume + v) % b.volume_target ∧
      b'.completed_candles.length
        = b.completed_candles.length + (b.accumulated_volume + v) / b.volume_target ∧
      (b'.current_candle_open = none → b'.accumulated_volume = 0) ∧
      (∃ new, b'.completed_candles = b.completed_candles ++ new) ∧
      (candleVolumeSum b'.completed_candles + b'.accumulated_volume
          + candleExcessSum b.volume_target b.completed_candles
        = candleVolumeSum b.completed_candles + b.accumulated_volume + v
          + candleExcessSum b.volume_target b'.completed_candles) ∧
      (out.isSome ↔ (b.volume_target ≤ b.accumulated_volume + v
          ∧ (b.accumulated_volume + v) % b.volume_target = 0)) := by
  induction fuel with
  | zero => intro b b' p v ts out _ _ h; simp [addTickF] at h
  | succ n ih =>
    intro b b' p v ts out hT h0 h
    rw [addTickF] at h
    simp only [] at h
    have hsa := seedIfEmpty_accumulated_volume (b := b) p ts h0
    split at h
    · next hc1 =>
      simp only [applyTick_volume_target, applyTick_accumulated_volume,
        seedIfEmpty_volume_target, hsa] at hc1
      split at h
      · next hc2 =>
        -- positive excess: the call recurses on the reset builder
        simp only [applyTick_volume_target, applyTick_accumulated_volume,
          seedIfEmpty_volume_target, hsa] at hc2
        have hrec := ih _ b' p _ ts out (by simpa using hT) (fun _ => rfl) h
        simp only [resetAfterEmit_volume_target, resetAfterEmit_accumulated_volume,
          resetAfterEmit_completed_candles, applyTick_volume_target,
          applyTick_accumulated_volume, applyTick_completed_candles,
          seedIfEmpty_volume_target, seedIfEmpty_completed_candles, hsa,
          makeCandle_volume, List.length_append, List.length_cons, List.length_nil,
          candleVolumeSum_append, candleExcessSum_append, Nat.zero_add] at hrec
        obtain ⟨htgt, hacc, hlen, hinv, ⟨new, hnew⟩, hcons, hout⟩ := hrec
        have hmod : (b.accumulated_volume + v - b.volume_target) % b.volume_target
            = (b.accumulated_volume + v) % b.volume_target :=
          (Nat.mod_eq_sub_mod hc1).symm
        have hdiv : (b.accumulated_volume + v) / b.volume_target
            = (b.accumulated_volume + v - b.volume_target) / b.volume_target + 1 :=
          Nat.div_eq_sub_div (by omega) hc1
        refine ⟨htgt, ?_, ?_, hinv, ?_, ?_, ?_⟩
        · rw [hacc, hmod]
        · rw [hlen, hdiv]; omega
        · exact ⟨_, by rw [hnew, List.append_assoc]⟩
        · have hcv : candleVolumeSum [makeCandle
              (applyTick (seedIfEmpty b p ts) p v ts) p ts]
              = b.accumulated_volume + v := by
            simp [candleVolumeSum, hsa]
          have hce : candleExcessSum b.volume_target [makeCandle
              (applyTick (seedIfEmpty b p ts) p v ts) p ts]
              = b.accumulated_volume + v - b.volume_target := by
            simp [candleExcessSum, hsa]
          rw [hnew] at *
          simp only [candleVolumeSum_append, candleExcessSum_append] at hcons ⊢
          rw [hcv] at hcons
          rw [hce] at hcons ⊢
          omega
        · rw [hout, hmod]
          constructor
          · rintro ⟨h1, h2⟩
            exact ⟨by omega, h2⟩
          · rintro ⟨h1, h2⟩
            exact ⟨target_le_sub h2 hc2, h2⟩
      · next hc2 =>
        -- exact completion: the accumulated total equals the target
        simp only [applyTick_volume_target, applyTick_accumulated_volume,
          seedIfEmpty_volume_target, hsa] at hc2
        simp only [Option.some.injEq, Prod.mk.injEq] at h
        obtain ⟨hb, hout⟩ := h
        subst hb; subst hout
        have hm : b.accumulated_volume + v = b.volume_target := by omega
        refine ⟨by simp, ?_, ?_, fun _ => rfl, ?_, ?_, ?_⟩
        · simp [hm, Nat.mod_self]
        · simp only [resetAfterEmit_completed_candles, applyTick_completed_candles,
            seedIfEmpty_completed_candles, List.length_append, List.length_cons,
            List.length_nil, hm]
          rw [Nat.div_self (by omega)]
        · exact ⟨[makeCandle (applyTick (seedIfEmpty b p ts) p v ts) p ts], by simp⟩
        · simp only [resetAfterEmit_accumulated_volume, resetAfterEmit_completed_candles,
            applyTick_completed_candles, seedIfEmpty_completed_candles,
            candleVolumeSum_append, candleExcessSum_append]
          have hcv : candleVolumeSum
              [makeCandle (applyTick (seedIfEmpty b p ts) p v ts) p ts]
              = b.accumulated_volume + v := by simp [candleVolumeSum, hsa]
          have hce : candleExcessSum b.volume_target
              [makeCandle (applyTick (seedIfEmpty b p ts) p v ts) p ts]
              = b.accumulated_volume + v - b.volume_target := by
            simp [candleExcessSum, hsa]
          rw [hcv, hce]
          omega
        · simp [hm, Nat.mod_self]
    · next hc1 =>
      simp only [applyTick_volume_target, applyTick_accumulated_volume,
        seedIfEmpty_volume_target, hsa] at hc1
      simp only [Option.some.injEq, Prod.mk.injEq] at h
      obtain ⟨hb, hout⟩ := h
      subst hb; subst hout
      refine ⟨by simp, ?_, ?_, ?_, ⟨[], by simp⟩, ?_, ?_⟩
      · simp only [applyTick_accumulated_volume, hsa, seedIfEmpty_volume_target,
          applyTick_volume_target]
        exact (Nat.mod_eq_of_lt (by omega)).symm
      · simp only [applyTick_completed_candles, seedIfEmpty_completed_candles,
          applyTick_volume_target, seedIfEmpty_volume_target]
        rw [Nat.div_eq_of_lt (by omega), Nat.add_zero]
      · intro hop
        exact absurd (by simpa using hop) (seedIfEmpty_open_ne_none b p ts)
      · simp only [applyTick_completed_candles, seedIfEmpty_completed_candles,
          applyTick_accumulated_volume, hsa]
        omega
      · constructor
        · intro hsome
          simp at hsome
        · rintro ⟨h1, _⟩
          exact absurd h1 hc1

/-- With a positive target, `add_tick` is the (always successful) fueled run. -/
theorem addTickF_eq_add_tick {b : VolumetricCandleBuilder} {p : ℚ} {v ts : Nat}
    (hT : 1 ≤ b.volume_target) :
    addTickF (b.accumulated_volume + v + 1) b p v ts = some (add_tick b p v ts) := by
  have h := addTickF_isSome (b.accumulated_volume + v + 1) b p v ts hT (by omega)
  obtain ⟨r, hr⟩ := Option.isSome_iff_exists.mp h
  rw [add_tick, hr]
  rfl

/-- `addTickF_spec`, restated for the total `add_tick`. -/
theorem add_tick_spec {b : VolumetricCandleBuilder} {p : ℚ} {v ts : Nat}
    (hT : 1 ≤ b.volume_target)
    (h0 : b.current_candle_open = none → b.accumulated_volume = 0) :
    (add_tick b p v ts).1.volume_target = b.volume_target ∧
    (add_tick b p v ts).1.accumulated_volume
      = (b.accumulated_volume + v) % b.volume_target ∧
    (add_tick b p v ts).1.completed_candles.length
      = b.completed_candles.length + (b.accumulated_volume + v) / b.volume_target ∧
    ((add_tick b p v ts).1.current_candle_open = none →
      (add_tick b p v ts).1.accumulated_volume = 0) ∧
    (∃ new, (add_tick b p v ts).1.completed_candles = b.completed_candles ++ new) ∧
    (candleVolumeSum (add_tick b p v ts).1.completed_candles
        + (add_tick b p v ts).1.accumulated_volume
        + candleExcessSum b.volume_target b.completed_candles
      = candleVolumeSum b.completed_candles + b.accumulated_volume + v
        + candleExcessSum b.volume_target (add_tick b p v ts).1.completed_candles) ∧
    ((add_tick b p v ts).2.isSome ↔ (b.volume_target ≤ b.accumulated_volume + v
        ∧ (b.accumulated_volume + v) % b.volume_target = 0)) :=
  addTickF_spec (b.accumulated_volume + v + 1) b (add_tick b p v ts).1 p v ts
    (add_tick b p v ts).2 hT h0 (addTickF_eq_add_tick hT)

/-- After seeding and applying a tick, the in-progress OHLC fields are all
populated and within bounds. -/
theorem currentOK_applySeed {b : VolumetricCandleBuilder} (p : ℚ) (v ts : Nat)
    (hok : CurrentOK b) :
    ∃ o hi lo cl,
      (applyTick (seedIfEmpty b p ts) p v ts).current_candle_open = some o ∧
      (applyTick (seedIfEmpty b p ts) p v ts).current_candle_high = some hi ∧
      (applyTick (seedIfEmpty b p ts) p v ts).current_candle_low = some lo ∧
      (applyTick (seedIfEmpty b p ts) p v ts).current_candle_close = some cl ∧
      lo ≤ o ∧ o ≤ hi ∧ lo ≤ cl ∧ cl ≤ hi := by
  rcases hok with ⟨ho, hh, hl, _⟩ | ⟨o, hi, lo, cl, ho, hh, hl, _, h1, h2, _, _⟩
  · refine ⟨p, p, p, p, ?_⟩
    rw [seedIfEmpty_of_none p ts ho]
    simp
  · refine ⟨o, max hi p, min lo p, p, ?_⟩
    rw [seedIfEmpty_of_some p ts (by simp [ho])]
    refine ⟨?_, ?_, ?_, ?_, ?_, ?_, ?_, ?_⟩
    · simp [ho]
    · simp [hh]
    · simp [hl]
    · simp
    · exact le_trans (min_le_left _ _) h1
    · exact le_trans h2 (le_max_left _ _)
    · exact min_le_right _ _
    · exact le_max_right _ _

/-- Every candle present after an `addTickF` run was already there or is
well-formed, and the in-progress state stays well-formed. -/
theorem addTickF_ohlc (fuel : Nat) :
    ∀ (b b' : VolumetricCandleBuilder) (p : ℚ) (v ts : Nat)
      (out : Option VolumetricCandle),
      CurrentOK b →
      addTickF fuel b p v ts = some (b', out) →
      CurrentOK b' ∧
      ∀ c ∈ b'.completed_candles,
        c ∈ b.completed_candles ∨ CandleOK b.volume_target c := by
  induction fuel with
  | zero => intro b b' p v ts out _ h; simp [addTickF] at h
  | succ n ih =>
    intro b b' p v ts out hok h
    obtain ⟨o, hi, lo, cl, ho, hh, hl, hcl, h1, h2, h3, h4⟩ :=
      currentOK_applySeed p v ts hok
    rw [addTickF] at h
    simp only [] at h
    split at h
    · next hc1 =>
      have hcand : CandleOK b.volume_target
          (makeCandle (applyTick (seedIfEmpty b p ts) p v ts) p ts) := by
        refine ⟨?_, ?_, ?_, ?_, ?_⟩
        · simp only [makeCandle_low, makeCandle_open_price, ho, hl, Option.getD_some]
          exact h1
        · simp only [makeCandle_open_price, makeCandle_high, ho, hh, Option.getD_some]
          exact h2
        · simp only [makeCandle_low, makeCandle_close, hl, hcl, Option.getD_some]
          exact h3
        · simp only [makeCandle_close, makeCandle_high, hcl, hh, Option.getD_some]
          exact h4
        · simpa using hc1
      split at h
      · have hrec := ih _ b' p _ ts out (Or.inl (by simp)) h
        obtain ⟨hok', hmem⟩ := hrec
        refine ⟨hok', ?_⟩
        intro c hcmem
        rcases hmem c hcmem with hin | hOK
        · simp only [resetAfterEmit_completed_candles, applyTick_completed_candles,
            seedIfEmpty_completed_candles, List.mem_append, List.mem_singleton] at hin
          rcases hin with hin | rfl
          · exact Or.inl hin
          · exact Or.inr hcand
        · right
          simpa using hOK
      · simp only [Option.some.injEq, Prod.mk.injEq] at h
        obtain ⟨hb, hout⟩ := h
        subst hb; subst hout
        refine ⟨Or.inl (by simp), ?_⟩
        intro c hcmem
        simp only [resetAfterEmit_completed_candles, applyTick_completed_candles,
          seedIfEmpty_completed_candles, List.mem_append, List.mem_singleton] at hcmem
        rcases hcmem with hin | rfl
        · exact Or.inl hin
        · exact Or.inr hcand
    · next hc1 =>
      simp only [Option.some.injEq, Prod.mk.injEq] at h
      obtain ⟨hb, hout⟩ := h
      subst hb; subst hout
      refine ⟨Or.inr ⟨o, hi, lo, cl, ho, hh, hl, hcl, h1, h2, h3, h4⟩, ?_⟩
      intro c hcmem
      left
      simpa using hcmem

/-- Tight termination bound: each self-invocation passes an excess smaller by
the volume target, so the recursion depth is bounded by the running total
divided by the target. -/
theorem addTickF_isSome_div (fuel : Nat) :
    ∀ (b : VolumetricCandleBuilder) (p : ℚ) (v ts : Nat),
      1 ≤ b.volume_target →
      (b.accumulated_volume + v) / b.volume_target < fuel →
      (addTickF fuel b p v ts).isSome := by
  induction fuel with
  | zero => intro b p v ts _ hlt; exact absurd hlt (Nat.not_lt_zero _)
  | succ n ih =>
    intro b p v ts hT hlt
    rw [addTickF]
    simp only []
    split
    · next hc1 =>
      split
      · next hc2 =>
        apply ih
        · simpa using hT
        · simp only [applyTick_volume_target, applyTick_accumulated_volume,
            seedIfEmpty_volume_target] at hc1 hc2 ⊢
          simp only [resetAfterEmit_volume_target, resetAfterEmit_accumulated_volume,
            applyTick_volume_target, applyTick_accumulated_volume,
            seedIfEmpty_volume_target, Nat.zero_add]
          have hA := seedIfEmpty_acc_le b p ts
          have e1 : ((seedIfEmpty b p ts).accumulated_volume + v) / b.volume_target
              = ((seedIfEmpty b p ts).accumulated_volume + v - b.volume_target)
                  / b.volume_target + 1 :=
            Nat.div_eq_sub_div (by omega) hc1
          have e2 : ((seedIfEmpty b p ts).accumulated_volume + v) / b.volume_target
              ≤ (b.accumulated_volume + v) / b.volume_target :=
            Nat.div_le_div_right (by omega)
          have e4 : ((seedIfEmpty b p ts).accumulated_volume + v - b.volume_target)
              / b.volume_target + 1 ≤ n := by
            rw [← e1]
            exact e2.trans (Nat.lt_succ_iff.mp hlt)
          exact Nat.lt_of_succ_le e4
      · simp
    · simp

/-- Running total of the div-mod composition across one call of `add_tick`. -/
theorem div_add_mod_div {T a c : Nat} (hT : 0 < T) :
    a / T + (a % T + c) / T = (a + c) / T := by
  conv_rhs => rw [← Nat.div_add_mod a T, Nat.add_assoc, Nat.mul_add_div hT]

@[simp] theorem ticksVolume_cons (x : ℚ × Nat × Nat) (ticks : List (ℚ × Nat × Nat)) :
    ticksVolume (x :: ticks) = x.2.1 + ticksVolume ticks := by
  simp [ticksVolume]

/-- Fold invariant: over a whole tick sequence, the candle count and the
in-progress accumulator evolve by Euclidean division of the total volume by
the target. -/
theorem processTicks_count (ticks : List (ℚ × Nat × Nat)) :
    ∀ (b : VolumetricCandleBuilder),
      1 ≤ b.volume_target →
      (b.current_candle_open = none → b.accumulated_volume = 0) →
      b.accumulated_volume < b.volume_target →
      (processTicks b ticks).volume_target = b.volume_target ∧
      (processTicks b ticks).accumulated_volume
        = (b.accumulated_volume + ticksVolume ticks) % b.volume_target ∧
      (processTicks b ticks).completed_candles.length
        = b.completed_candles.length
          + (b.accumulated_volume + ticksVolume ticks) / b.volume_target := by
  induction ticks with
  | nil =>
    intro b hT _ hacc
    refine ⟨rfl, ?_, ?_⟩
    · simp [processTicks, ticksVolume, Nat.mod_eq_of_lt hacc]
    · simp [processTicks, ticksVolume, Nat.div_eq_of_lt hacc]
  | cons x rest ih =>
    intro b hT h0 hacc
    obtain ⟨p, v, ts⟩ := x
    obtain ⟨htgt, hacc1, hlen1, hinv1, -, -, -⟩ := @add_tick_spec b p v ts hT h0
    have hT1 : 1 ≤ (add_tick b p v ts).1.volume_target := by rw [htgt]; exact hT
    have hacc1lt : (add_tick b p v ts).1.accumulated_volume
        < (add_tick b p v ts).1.volume_target := by
      rw [hacc1, htgt]
      exact Nat.mod_lt _ (by omega)
    obtain ⟨htgt2, hacc2, hlen2⟩ := ih (add_tick b p v ts).1 hT1 hinv1 hacc1lt
    refine ⟨?_, ?_, ?_⟩
    · simp only [processTicks]
      rw [htgt2, htgt]
    · simp only [processTicks] at hacc2 ⊢
      rw [hacc2, hacc1, htgt]
      simp only [ticksVolume_cons]
      rw [Nat.mod_add_mod, ← Nat.add_assoc]
    · simp only [processTicks] at hlen2 ⊢
      rw [hlen2, hacc1, hlen1, htgt]
      simp only [ticksVolume_cons]
      rw [Nat.add_assoc b.completed_candles.length,
        div_add_mod_div (show 0 < b.volume_target by omega),
        ← Nat.add_assoc b.accumulated_volume]

/-- Fold invariant for candle well-formedness over a whole tick sequence. -/
theorem processTicks_ohlc (ticks : List (ℚ × Nat × Nat)) :
    ∀ (b : VolumetricCandleBuilder),
      1 ≤ b.volume_target →
      (b.current_candle_open = none → b.accumulated_volume = 0) →
      CurrentOK b →
      (processTicks b ticks).volume_target = b.volume_target ∧
      CurrentOK (processTicks b ticks) ∧
      ∀ c ∈ (processTicks b ticks).completed_candles,
        c ∈ b.completed_candles ∨ CandleOK b.volume_target c := by
  induction ticks with
  | nil =>
    intro b _ _ hok
    exact ⟨rfl, hok, fun c hc => Or.inl hc⟩
  | cons x rest ih =>
    intro b hT h0 hok
    obtain ⟨p, v, ts⟩ := x
    obtain ⟨htgt, -, -, hinv1, -, -, -⟩ := @add_tick_spec b p v ts hT h0
    obtain ⟨hok1, hmem1⟩ := addTickF_ohlc (b.accumulated_volume + v + 1) b
      (add_tick b p v ts).1 p v ts (add_tick b p v ts).2 hok (addTickF_eq_add_tick hT)
    have hT1 : 1 ≤ (add_tick b p v ts).1.volume_target := by rw [htgt]; exact hT
    obtain ⟨htgt2, hok2, hmem2⟩ := ih (add_tick b p v ts).1 hT1 hinv1 hok1
    refine ⟨?_, ?_, ?_⟩
    · simp only [processTicks]
      rw [htgt2, htgt]
    · simpa only [processTicks] using hok2
    · intro c hc
      simp only [processTicks] at hc
      rcases hmem2 c hc with hin | hOK
      · rcases hmem1 c hin with hin' | hOK'
        · exact Or.inl hin'
        · exact Or.inr hOK'
      · rw [htgt] at hOK
        exact Or.inr hOK

/-- Fold invariant for volume conservation (with double-counted overflow)
over a whole tick sequence. -/
theorem processTicks_conservation (ticks : List (ℚ × Nat × Nat)) :
    ∀ (b : VolumetricCandleBuilder),
      1 ≤ b.volume_target →
      (b.current_candle_open = none → b.accumulated_volume = 0) →
      candleVolumeSum (processTicks b ticks).completed_candles
          + (processTicks b ticks).accumulated_volume
          + candleExcessSum b.volume_target b.completed_candles
        = candleVolumeSum b.completed_candles + b.accumulated_volume + ticksVolume ticks
          + candleExcessSum b.volume_target (processTicks b ticks).completed_candles := by
  induction ticks with
  | nil =>
    intro b _ _
    simp [processTicks, ticksVolume]
  | cons x rest ih =>
    intro b hT h0
    obtain ⟨p, v, ts⟩ := x
    obtain ⟨htgt, -, -, hinv1, -, hcons1, -⟩ := @add_tick_spec b p v ts hT h0
    have hT1 : 1 ≤ (add_tick b p v ts).1.volume_target := by rw [htgt]; exact hT
    have hcons2 := ih (add_tick b p v ts).1 hT1 hinv1
    rw [htgt] at hcons2
    simp only [processTicks] at *
    simp only [ticksVolume_cons]
    omega

theorem rhe_eq_low {q : ℚ} {z : ℤ} (h1 : (z : ℚ) ≤ q) (h2 : q < z + 1)
    (h3 : q - z < 1 / 2) : rhe q = z := by
  have hf : ⌊q⌋ = z := Int.floor_eq_iff.mpr ⟨h1, h2⟩
  unfold rhe
  rw [hf, if_pos h3]

theorem rhe_eq_high {q : ℚ} {z : ℤ} (h1 : (z : ℚ) ≤ q) (h2 : q < z + 1)
    (h3 : 1 / 2 < q - z) : rhe q = z + 1 := by
  have hf : ⌊q⌋ = z := Int.floor_eq_iff.mpr ⟨h1, h2⟩
  unfold rhe
  rw [hf, if_neg (by linarith), if_pos h3]

theorem rhe_intCast (z : ℤ) : rhe (z : ℚ) = z := by
  unfold rhe
  rw [Int.floor_intCast, if_pos (by norm_num)]

/-- Round half to even moves a rational by at most one half. -/
theorem rhe_abs_le (q : ℚ) : |q - (rhe q : ℚ)| ≤ 1 / 2 := by
  have h1 : (⌊q⌋ : ℚ) ≤ q := Int.floor_le q
  have h2 : q < ⌊q⌋ + 1 := Int.lt_floor_add_one q
  unfold rhe
  split
  · next h => rw [abs_le]; constructor <;> linarith
  · next h =>
    split
    · next h3 => push_cast; rw [abs_le]; constructor <;> linarith
    · next h3 =>
      have htie : q - ⌊q⌋ = 1 / 2 := le_antisymm (not_lt.mp h3) (not_lt.mp h)
      split
      · rw [abs_le]; constructor <;> linarith
      · push_cast; rw [abs_le]; constructor <;> linarith

/-- Rounding to two decimals moves a rational by at most 1/200. -/
theorem round2_abs_le (q : ℚ) : |q - round2 q| ≤ 1 / 200 := by
  have h := rhe_abs_le (q * 100)
  unfold round2
  rw [abs_le] at h ⊢
  constructor <;> [linarith [h.1]; linarith [h.2]]

/-- `round2` is the identity on the 0.01 grid. -/
theorem round2_eq_self {p : ℚ} (h : (p * 100).den = 1) : round2 p = p := by
  unfold round2
  have h2 : ((p * 100).num : ℚ) = p * 100 := Rat.coe_int_num_of_den_eq_one h
  rw [← h2, rhe_intCast, h2, mul_div_assoc]
  norm_num

theorem rheR_eq_zero {x : ℝ} (h0 : 0 ≤ x) (h1 : x ≤ 1 / 2) : rheR x = 0 := by
  have hf : ⌊x⌋ = 0 := Int.floor_eq_iff.mpr (by push_cast; constructor <;> linarith)
  unfold rheR
  rw [hf]
  by_cases hc : x - ((0 : ℤ) : ℝ) < 1 / 2
  · rw [if_pos hc]
  · rw [if_neg hc, if_neg (by push_cast; push_cast at hc; linarith),
      if_pos ⟨0, rfl⟩]

theorem round2R_eq_zero {x : ℝ} (h0 : 0 ≤ x) (h1 : x ≤ 1 / 200) :
    round2R x = 0 := by
  unfold round2R
  rw [rheR_eq_zero (by linarith) (by linarith)]
  norm_num

theorem rheR_eq_high {x : ℝ} {z : ℤ} (h1 : (z : ℝ) ≤ x) (h2 : x < z + 1)
    (h3 : 1 / 2 < x - z) : rheR x = z + 1 := by
  have hf : ⌊x⌋ = z := Int.floor_eq_iff.mpr ⟨h1, h2⟩
  unfold rheR
  rw [hf, if_neg (by linarith), if_pos h3]

/-- Casting an integer list sum into the rationals. -/
theorem intCast_list_sum (l : List ℤ) :
    ((l.sum : ℤ) : ℚ) = (l.map (Int.cast : ℤ → ℚ)).sum := by
  induction l with
  | nil => simp
  | cons x xs ih => simp [ih]

theorem zip_map_snd {s : VWAPCalculator}
    (hsync : s.price_history.length = s.volume_history.length) :
    (s.price_history.zip s.volume_history).map Prod.snd = s.volume_history :=
  List.map_snd_zip _ _ hsync.ge

/-- On a constant-price window the price-volume sum is the price times the
total volume. -/
theorem tpv_const {s : VWAPCalculator} {p : ℚ}
    (hsync : s.price_history.length = s.volume_history.length)
    (hconst : ∀ q ∈ s.price_history, q = p) :
    tpv s = p * (total_volume s : ℚ) := by
  unfold tpv
  rw [List.map_congr_left (g := fun pv : ℚ × ℤ => p * (pv.2 : ℚ))
    (fun x hx => by rw [hconst x.1 (List.of_mem_zip hx).1])]
  rw [show (fun pv : ℚ × ℤ => p * (pv.2 : ℚ))
      = (fun v : ℤ => p * (v : ℚ)) ∘ Prod.snd from rfl]
  rw [← List.map_map, zip_map_snd hsync, List.sum_map_mul_left,
    total_volume, intCast_list_sum]

/-- On a constant-price window the weighted squared-deviation sum from `m` is
the squared deviation of the price times the total volume. -/
theorem sqDevSum_const {s : VWAPCalculator} {p : ℚ} (m : ℚ)
    (hsync : s.price_history.length = s.volume_history.length)
    (hconst : ∀ q ∈ s.price_history, q = p) :
    sqDevSum s m = (p - m) ^ 2 * (total_volume s : ℚ) := by
  unfold sqDevSum
  rw [List.map_congr_left (g := fun pv : ℚ × ℤ => (pv.2 : ℚ) * (p - m) ^ 2)
    (fun x hx => by rw [hconst x.1 (List.of_mem_zip hx).1])]
  rw [show (fun pv : ℚ × ℤ => (pv.2 : ℚ) * (p - m) ^ 2)
      = (fun v : ℤ => (v : ℚ) * (p - m) ^ 2) ∘ Prod.snd from rfl]
  rw [← List.map_map, zip_map_snd hsync, List.sum_map_mul_right,
    total_volume, intCast_list_sum, mul_comm]

/-- Sliding-window step, pop case: when the window `A.drop (A.length - L)` is
at capacity, appending and dropping the head is appending and sliding. -/
theorem drop_window_step {α : Type} (A : List α) (a : α) (L : Nat)
    (hL : L ≤ A.length) :
    ((A.drop (A.length - L)) ++ [a]).tail = (A ++ [a]).drop (A.length + 1 - L) := by
  rcases Nat.eq_zero_or_pos L with hL0 | hLpos
  · subst hL0
    rw [List.drop_eq_nil_iff.mpr (by omega)]
    rw [List.drop_eq_nil_iff.mpr (by simp)]
    simp
  · have hk : A.length - L < A.length := by omega
    rw [List.tail_append_of_ne_nil (by rw [ne_eq, List.drop_eq_nil_iff]; omega)]
    rw [List.tail_drop]
    have h1 : A.length + 1 - L = A.length - L + 1 := by omega
    rw [h1, List.drop_append_eq_append_drop]
    have h2 : A.length - L + 1 - A.length = 0 := by omega
    rw [h2, List.drop_zero]

/-- C1 counterexample: on a fresh builder with target 10, a single
`add_tick` of volume 25 completes TWO candles (both appended to
`completed_candles`) and still returns `none`, because the excess recursion
returns the inner call's result.  This refutes both halves of C1: a call that
completed candles does not return one, and more than one candle is completed
in a single call. -/
theorem add_tick_overflow_counterexample :
    (add_tick (VolumetricCandleBuilder.init 10) 1 25 0).2 = none ∧
    ((add_tick (VolumetricCandleBuilder.init 10) 1 25 0).1).completed_candles.length = 2 := by
  constructor <;> decide

/-- C1 (amended): a call of `add_tick` completes
`(accumulated + volume) / target` candles, all appended to
`completed_candles`; the call RETURNS a candle exactly when the running total
lands on a positive exact multiple of the target (final excess zero) — in
every other case, including calls that completed candles with leftover
volume, it returns `none`. -/
theorem add_tick_return_iff_exact_multiple {b : VolumetricCandleBuilder} {p : ℚ}
    {v ts : Nat} (hT : 1 ≤ b.volume_target)
    (h0 : b.current_candle_open = none → b.accumulated_volume = 0) :
    ((add_tick b p v ts).2.isSome ↔
      (b.volume_target ≤ b.accumulated_volume + v
        ∧ (b.accumulated_volume + v) % b.volume_target = 0)) ∧
    (add_tick b p v ts).1.completed_candles.length
      = b.completed_candles.length
        + (b.accumulated_volume + v) / b.volume_target :=
  ⟨(add_tick_spec hT h0).2.2.2.2.2.2, (add_tick_spec hT h0).2.2.1⟩

/-- Witness for `add_tick_return_iff_exact_multiple` at a fresh builder with
target 10 and a tick of volume 20 (an exact multiple: the call returns a
candle and completes two). -/
theorem add_tick_return_iff_exact_multiple_witness :
    (1 ≤ (VolumetricCandleBuilder.init 10).volume_target ∧
      ((VolumetricCandleBuilder.init 10).current_candle_open = none →
        (VolumetricCandleBuilder.init 10).accumulated_volume = 0)) ∧
    (((add_tick (VolumetricCandleBuilder.init 10) 1 20 0).2.isSome ↔
      ((VolumetricCandleBuilder.init 10).volume_target
          ≤ (VolumetricCandleBuilder.init 10).accumulated_volume + 20
        ∧ ((VolumetricCandleBuilder.init 10).accumulated_volume + 20)
            % (VolumetricCandleBuilder.init 10).volume_target = 0)) ∧
    (add_tick (VolumetricCandleBuilder.init 10) 1 20 0).1.completed_candles.length
      = (VolumetricCandleBuilder.init 10).completed_candles.length
        + ((VolumetricCandleBuilder.init 10).accumulated_volume + 20)
            / (VolumetricCandleBuilder.init 10).volume_target) :=
  ⟨⟨by decide, fun _ => rfl⟩,
    add_tick_return_iff_exact_multiple (by decide) (fun _ => rfl)⟩

/-- C2: feeding any finite tick sequence of total volume V into a fresh
builder with target T ≥ 1 completes exactly V / T candles, and leaves
V % T volume in the in-progress accumulator. -/
theorem candle_count_div_mod (T : Nat) (ticks : List (ℚ × Nat × Nat))
    (hT : 1 ≤ T) :
    (processTicks (VolumetricCandleBuilder.init T) ticks).completed_candles.length
      = ticksVolume ticks / T ∧
    (processTicks (VolumetricCandleBuilder.init T) ticks).accumulated_volume
      = ticksVolume ticks % T := by
  obtain ⟨htgt, hacc, hlen⟩ := processTicks_count ticks
    (VolumetricCandleBuilder.init T) hT (fun _ => rfl)
    (show (0 : Nat) < T by omega)
  constructor
  · rw [hlen]
    simp [VolumetricCandleBuilder.init]
  · rw [hacc]
    simp [VolumetricCandleBuilder.init]

/-- Witness for `candle_count_div_mod`: one tick of volume 25 at target 10
gives 2 candles and accumulator 5. -/
theorem candle_count_div_mod_witness :
    1 ≤ 10 ∧
    ((processTicks (VolumetricCandleBuilder.init 10)
        [(1, 25, 0)]).completed_candles.length = ticksVolume [(1, 25, 0)] / 10 ∧
      (processTicks (VolumetricCandleBuilder.init 10)
        [(1, 25, 0)]).accumulated_volume = ticksVolume [(1, 25, 0)] % 10) :=
  ⟨by decide, candle_count_div_mod 10 [(1, 25, 0)] (by decide)⟩

/-- C3: every candle completed over any tick sequence on a fresh builder with
target T ≥ 1 satisfies the OHLC bounds `low ≤ open ≤ high`,
`low ≤ close ≤ high`, and records volume at least T. -/
theorem completed_candle_ohlc_volume (T : Nat) (ticks : List (ℚ × Nat × Nat))
    (hT : 1 ≤ T) :
    ∀ c ∈ (processTicks (VolumetricCandleBuilder.init T) ticks).completed_candles,
      c.low ≤ c.open_price ∧ c.open_price ≤ c.high ∧ c.low ≤ c.close ∧
        c.close ≤ c.high ∧ T ≤ c.volume := by
  intro c hc
  obtain ⟨-, -, hmem⟩ := processTicks_ohlc ticks (VolumetricCandleBuilder.init T)
    hT (fun _ => rfl) (Or.inl ⟨rfl, rfl, rfl, rfl⟩)
  rcases hmem c hc with hin | hOK
  · simp [VolumetricCandleBuilder.init] at hin
  · exact hOK

/-- Witness for `completed_candle_ohlc_volume`: the first candle completed by
a volume-25 tick at target 10. -/
theorem completed_candle_ohlc_volume_witness :
    1 ≤ 10 ∧
    (⟨1, 1, 1, 1, 25, 0, 0, 1⟩ : VolumetricCandle)
      ∈ (processTicks (VolumetricCandleBuilder.init 10)
          [(1, 25, 0)]).completed_candles ∧
    ((⟨1, 1, 1, 1, 25, 0, 0, 1⟩ : VolumetricCandle).low
        ≤ (⟨1, 1, 1, 1, 25, 0, 0, 1⟩ : VolumetricCandle).open_price ∧
      (⟨1, 1, 1, 1, 25, 0, 0, 1⟩ : VolumetricCandle).open_price
        ≤ (⟨1, 1, 1, 1, 25, 0, 0, 1⟩ : VolumetricCandle).high ∧
      (⟨1, 1, 1, 1, 25, 0, 0, 1⟩ : VolumetricCandle).low
        ≤ (⟨1, 1, 1, 1, 25, 0, 0, 1⟩ : VolumetricCandle).close ∧
      (⟨1, 1, 1, 1, 25, 0, 0, 1⟩ : VolumetricCandle).close
        ≤ (⟨1, 1, 1, 1, 25, 0, 0, 1⟩ : VolumetricCandle).high ∧
      10 ≤ (⟨1, 1, 1, 1, 25, 0, 0, 1⟩ : VolumetricCandle).volume) :=
  ⟨by decide, by decide,
    completed_candle_ohlc_volume 10 [(1, 25, 0)] (by decide) _ (by decide)⟩

/-- C9: `add_tick` terminates for every call with volume target at least 1:
each self-invocation passes an excess smaller by at least the target, so fuel
`(accumulated + volume) / target + 1` — the number of completions plus one —
already makes the fueled recursion succeed. -/
theorem add_tick_terminates (b : VolumetricCandleBuilder) (p : ℚ) (v ts : Nat)
    (hT : 1 ≤ b.volume_target) :
    (addTickF ((b.accumulated_volume + v) / b.volume_target + 1)
      b p v ts).isSome :=
  addTickF_isSome_div _ b p v ts hT (Nat.lt_succ_self _)

/-- Witness for `add_tick_terminates`: a single tick worth five targets
terminates within depth 6. -/
theorem add_tick_terminates_witness :
    1 ≤ (VolumetricCandleBuilder.init 10).volume_target ∧
    (addTickF (((VolumetricCandleBuilder.init 10).accumulated_volume + 50)
        / (VolumetricCandleBuilder.init 10).volume_target + 1)
      (VolumetricCandleBuilder.init 10) 1 50 0).isSome :=
  ⟨by decide, add_tick_terminates (VolumetricCandleBuilder.init 10) 1 50 0 (by decide)⟩

/-- C10: over any tick sequence on a fresh builder with target T ≥ 1, the
recorded volumes of the completed candles plus the in-progress accumulator
equal the volume fed plus the overflow excesses of the completed candles —
each overflow unit is recorded twice (in the completing candle and in the
candle it seeds), so the recorded total strictly exceeds the volume fed as
soon as any completion overflows its target. -/
theorem volume_conservation_double_count (T : Nat) (ticks : List (ℚ × Nat × Nat))
    (hT : 1 ≤ T) :
    (candleVolumeSum (processTicks (VolumetricCandleBuilder.init T)
          ticks).completed_candles
        + (processTicks (VolumetricCandleBuilder.init T) ticks).accumulated_volume
      = ticksVolume ticks
        + candleExcessSum T (processTicks (VolumetricCandleBuilder.init T)
            ticks).completed_candles) ∧
    ((∃ c ∈ (processTicks (VolumetricCandleBuilder.init T) ticks).completed_candles,
        T < c.volume) →
      ticksVolume ticks
        < candleVolumeSum (processTicks (VolumetricCandleBuilder.init T)
              ticks).completed_candles
          + (processTicks (VolumetricCandleBuilder.init T)
              ticks).accumulated_volume) := by
  have h := processTicks_conservation ticks (VolumetricCandleBuilder.init T) hT
    (fun _ => rfl)
  have htv : (VolumetricCandleBuilder.init T).volume_target = T := rfl
  have hacc0 : (VolumetricCandleBuilder.init T).accumulated_volume = 0 := rfl
  have hcc : (VolumetricCandleBuilder.init T).completed_candles = [] := rfl
  rw [htv, hacc0, hcc] at h
  have hnil1 : candleVolumeSum ([] : List VolumetricCandle) = 0 := rfl
  have hnil2 : candleExcessSum T ([] : List VolumetricCandle) = 0 := rfl
  rw [hnil1, hnil2] at h
  have heq : candleVolumeSum (processTicks (VolumetricCandleBuilder.init T)
          ticks).completed_candles
        + (processTicks (VolumetricCandleBuilder.init T) ticks).accumulated_volume
      = ticksVolume ticks
        + candleExcessSum T (processTicks (VolumetricCandleBuilder.init T)
            ticks).completed_candles := by omega
  refine ⟨heq, ?_⟩
  rintro ⟨c, hcmem, hlt⟩
  have hmem2 : c.volume - T ∈ ((processTicks (VolumetricCandleBuilder.init T)
      ticks).completed_candles.map (fun c => c.volume - T)) :=
    List.mem_map_of_mem _ hcmem
  have hle : c.volume - T ≤ candleExcessSum T (processTicks
      (VolumetricCandleBuilder.init T) ticks).completed_candles :=
    List.single_le_sum (fun x _ => Nat.zero_le x) _ hmem2
  omega

/-- Witness for `volume_conservation_double_count`: one tick of volume 25 at
target 10 (candles record 25 and 15; accumulator 5; fed 25; excesses 15+5). -/
theorem volume_conservation_double_count_witness :
    1 ≤ 10 ∧
    ((candleVolumeSum (processTicks (VolumetricCandleBuilder.init 10)
          [(1, 25, 0)]).completed_candles
        + (processTicks (VolumetricCandleBuilder.init 10)
            [(1, 25, 0)]).accumulated_volume
      = ticksVolume [(1, 25, 0)]
        + candleExcessSum 10 (processTicks (VolumetricCandleBuilder.init 10)
            [(1, 25, 0)]).completed_candles) ∧
    ((∃ c ∈ (processTicks (VolumetricCandleBuilder.init 10)
          [(1, 25, 0)]).completed_candles, 10 < c.volume) →
      ticksVolume [(1, 25, 0)]
        < candleVolumeSum (processTicks (VolumetricCandleBuilder.init 10)
              [(1, 25, 0)]).completed_candles
          + (processTicks (VolumetricCandleBuilder.init 10)
              [(1, 25, 0)]).accumulated_volume)) :=
  ⟨by decide, volume_conservation_double_count 10 [(1, 25, 0)] (by decide)⟩

/-- C5: `calculate_vwap` returns `none` exactly when the window is empty or
the total volume is exactly zero; on every other window it returns the
volume-weighted average price rounded to two decimals, so the division is
always guarded. -/
theorem calculate_vwap_characterization (s : VWAPCalculator) :
    (calculate_vwap s = none ↔ s.price_history = [] ∨ total_volume s = 0) ∧
    (s.price_history ≠ [] → total_volume s ≠ 0 →
      calculate_vwap s = some (round2 (tpv s / (total_volume s : ℚ)))) := by
  constructor
  · constructor
    · intro hnone
      unfold calculate_vwap at hnone
      by_cases h : s.price_history.length = 0
      · exact Or.inl (List.length_eq_zero.mp h)
      · rw [if_neg h] at hnone
        by_cases h2 : total_volume s = 0
        · exact Or.inr h2
        · rw [if_neg h2] at hnone
          exact absurd hnone (by simp)
    · intro hor
      unfold calculate_vwap
      rcases hor with h | h
      · rw [if_pos (by simp [h])]
      · by_cases hl : s.price_history.length = 0
        · rw [if_pos hl]
        · rw [if_neg hl, if_pos h]
  · intro h1 h2
    unfold calculate_vwap
    rw [if_neg (fun hc => h1 (List.length_eq_zero.mp hc)), if_neg h2]

/-- Witness for `calculate_vwap_characterization` on a one-sample window. -/
theorem calculate_vwap_characterization_witness :
    ((⟨50, [5500], [1000]⟩ : VWAPCalculator).price_history ≠ [] ∧
      total_volume ⟨50, [5500], [1000]⟩ ≠ 0) ∧
    calculate_vwap ⟨50, [5500], [1000]⟩
      = some (round2 (tpv ⟨50, [5500], [1000]⟩
          / (total_volume ⟨50, [5500], [1000]⟩ : ℚ))) :=
  ⟨⟨by simp, by decide⟩,
    (calculate_vwap_characterization ⟨50, [5500], [1000]⟩).2 (by simp) (by decide)⟩

/-- C6 counterexample: a constant-price window at price 1/1000 (a price off
the 0.01 grid) with positive total volume, on which `calculate_vwap` returns
0, not the price: the claimed exactness fails because the code rounds its
output to two decimals. -/
theorem constant_price_vwap_counterexample :
    (∀ q ∈ (⟨50, [1/1000], [1]⟩ : VWAPCalculator).price_history, q = 1/1000) ∧
    0 < total_volume ⟨50, [1/1000], [1]⟩ ∧
    calculate_vwap ⟨50, [1/1000], [1]⟩ = some 0 ∧
    calculate_vwap ⟨50, [1/1000], [1]⟩ ≠ some (1/1000) := by
  have hval : calculate_vwap ⟨50, [1/1000], [1]⟩ = some 0 := by
    unfold calculate_vwap
    rw [if_neg (by simp), if_neg (by decide)]
    have htpv : tpv ⟨50, [1/1000], [1]⟩ = 1/1000 := by
      norm_num [tpv]
    have htot : (total_volume ⟨50, [1/1000], [1]⟩ : ℚ) = 1 := by
      norm_num [total_volume]
    rw [htpv, htot]
    have : rhe (1/1000 / 1 * 100) = 0 := by
      rw [show (1/1000 / 1 * 100 : ℚ) = 1/10 by norm_num]
      exact rhe_eq_low (z := 0) (by norm_num) (by norm_num) (by norm_num)
    unfold round2
    rw [this]
    norm_num
  refine ⟨?_, by decide, hval, ?_⟩
  · intro q hq
    simpa using hq
  · rw [hval]
    intro hcontra
    rw [Option.some_inj] at hcontra
    norm_num at hcontra

/-- C6 (amended): on a constant-price window at price p with positive total
volume, `calculate_vwap` returns `round2 p` — which equals p exactly when p
lies on the 0.01 grid — and the volume-weighted standard deviation of such a
window (at least 2 samples) is exactly 0: even though the code measures
deviations from the ROUNDED vwap, the deviation is at most half a tick and
rounds back to zero. -/
theorem constant_price_vwap_std (s : VWAPCalculator) (p : ℚ)
    (hne : s.price_history ≠ [])
    (hsync : s.price_history.length = s.volume_history.length)
    (hconst : ∀ q ∈ s.price_history, q = p)
    (hpos : 0 < total_volume s) :
    calculate_vwap s = some (round2 p) ∧
    ((p * 100).den = 1 → calculate_vwap s = some p) ∧
    (2 ≤ s.price_history.length → calculate_std_dev s = some 0) := by
  have htv : tpv s = p * (total_volume s : ℚ) := tpv_const hsync hconst
  have hvz : (total_volume s : ℚ) ≠ 0 := Int.cast_ne_zero.mpr (ne_of_gt hpos)
  have hvwap : calculate_vwap s = some (round2 p) := by
    unfold calculate_vwap
    rw [if_neg (fun hc => hne (List.length_eq_zero.mp hc)),
      if_neg (ne_of_gt hpos), htv, mul_div_cancel_right₀ _ hvz]
  refine ⟨hvwap, ?_, ?_⟩
  · intro hden
    rw [hvwap, round2_eq_self hden]
  · intro h2
    unfold calculate_std_dev
    rw [if_neg (by omega), hvwap]
    simp only []
    rw [sqDevSum_const (round2 p) hsync hconst, mul_div_cancel_right₀ _ hvz]
    have hcast : (((p - round2 p) ^ 2 : ℚ) : ℝ) = (((p - round2 p : ℚ) : ℝ)) ^ 2 := by
      push_cast
      ring
    rw [hcast, Real.sqrt_sq_eq_abs]
    have hbound : |((p - round2 p : ℚ) : ℝ)| ≤ 1 / 200 := by
      have hq := round2_abs_le p
      have : ((|p - round2 p| : ℚ) : ℝ) = |((p - round2 p : ℚ) : ℝ)| := by
        push_cast
        rfl
      rw [← this]
      calc ((|p - round2 p| : ℚ) : ℝ) ≤ ((1 / 200 : ℚ) : ℝ) := by exact_mod_cast hq
        _ = 1 / 200 := by norm_num
    rw [round2R_eq_zero (abs_nonneg _) hbound]

/-- Witness for `constant_price_vwap_std` on the window [2, 2] with volumes
[1, 1]. -/
theorem constant_price_vwap_std_witness :
    ((⟨50, [2, 2], [1, 1]⟩ : VWAPCalculator).price_history ≠ [] ∧
      (⟨50, [2, 2], [1, 1]⟩ : VWAPCalculator).price_history.length
        = (⟨50, [2, 2], [1, 1]⟩ : VWAPCalculator).volume_history.length ∧
      (∀ q ∈ (⟨50, [2, 2], [1, 1]⟩ : VWAPCalculator).price_history, q = 2) ∧
      0 < total_volume ⟨50, [2, 2], [1, 1]⟩) ∧
    (calculate_vwap ⟨50, [2, 2], [1, 1]⟩ = some (round2 2) ∧
      (((2 : ℚ) * 100).den = 1 → calculate_vwap ⟨50, [2, 2], [1, 1]⟩ = some 2) ∧
      (2 ≤ (⟨50, [2, 2], [1, 1]⟩ : VWAPCalculator).price_history.length →
        calculate_std_dev ⟨50, [2, 2], [1, 1]⟩ = some 0)) :=
  ⟨⟨by simp, rfl, by decide, by decide⟩,
    constant_price_vwap_std ⟨50, [2, 2], [1, 1]⟩ 2 (by simp) rfl (by decide) (by decide)⟩

/-- C7 (amended): on a window with at least 2 samples and nonzero total
volume, `calculate_std_dev` returns
`round2(sqrt(Σ volume·(price − vwap)² / Σ volume))` where the vwap inside the
variance is the 2-decimal ROUNDED value returned by `calculate_vwap` — not
the full-precision quotient: rounding is applied to an intermediate value. -/
theorem calculate_std_dev_rounded_vwap (s : VWAPCalculator)
    (h2 : 2 ≤ s.price_history.length) (hv : total_volume s ≠ 0) :
    calculate_std_dev s
      = some (round2R (Real.sqrt
          (((sqDevSum s (round2 (tpv s / (total_volume s : ℚ)))
              / (total_volume s : ℚ) : ℚ)) : ℝ))) := by
  unfold calculate_std_dev
  rw [if_neg (by omega)]
  have hvwap : calculate_vwap s = some (round2 (tpv s / (total_volume s : ℚ))) := by
    unfold calculate_vwap
    rw [if_neg (by omega), if_neg hv]
  rw [hvwap]

/-- Witness for `calculate_std_dev_rounded_vwap` on the window [1, 2] with
volumes [1, 1]. -/
theorem calculate_std_dev_rounded_vwap_witness :
    (2 ≤ (⟨50, [1, 2], [1, 1]⟩ : VWAPCalculator).price_history.length ∧
      total_volume ⟨50, [1, 2], [1, 1]⟩ ≠ 0) ∧
    calculate_std_dev ⟨50, [1, 2], [1, 1]⟩
      = some (round2R (Real.sqrt
          (((sqDevSum ⟨50, [1, 2], [1, 1]⟩
                (round2 (tpv ⟨50, [1, 2], [1, 1]⟩
                  / (total_volume ⟨50, [1, 2], [1, 1]⟩ : ℚ)))
              / (total_volume ⟨50, [1, 2], [1, 1]⟩ : ℚ) : ℚ)) : ℝ))) :=
  ⟨⟨by simp, by decide⟩,
    calculate_std_dev_rounded_vwap ⟨50, [1, 2], [1, 1]⟩ (by simp) (by decide)⟩

/-- C7 counterexample: on the two-sample window prices [1.009, 1.0], volumes
[1, 1] the code returns std-dev 0.01 (variance about the rounded vwap 1.00),
while the claimed full-precision formula (vwap 1.0045 inside the variance)
yields 0.00.  Rounding the vwap before the variance changes the output. -/
theorem std_dev_rounded_vs_full_counterexample :
    2 ≤ (⟨50, [1009/1000, 1], [1, 1]⟩ : VWAPCalculator).price_history.length ∧
    total_volume ⟨50, [1009/1000, 1], [1, 1]⟩ ≠ 0 ∧
    calculate_std_dev ⟨50, [1009/1000, 1], [1, 1]⟩ = some (1/100) ∧
    std_dev_full_precision ⟨50, [1009/1000, 1], [1, 1]⟩ = some 0 ∧
    (some ((1 : ℝ)/100) : Option ℝ) ≠ some 0 := by
  have htpv : tpv ⟨50, [1009/1000, 1], [1, 1]⟩ = 2009/1000 := by
    norm_num [tpv]
  have htot : (total_volume ⟨50, [1009/1000, 1], [1, 1]⟩ : ℚ) = 2 := by
    norm_num [total_volume]
  have hvwap : calculate_vwap ⟨50, [1009/1000, 1], [1, 1]⟩ = some 1 := by
    unfold calculate_vwap
    rw [if_neg (by simp), if_neg (by decide), htpv, htot]
    unfold round2
    rw [show (2009/1000 / 2 * 100 : ℚ) = 2009/20 by norm_num]
    rw [rhe_eq_low (z := 100) (by norm_num) (by norm_num) (by norm_num)]
    norm_num
  have hsq : sqDevSum ⟨50, [1009/1000, 1], [1, 1]⟩ 1 = 81/1000000 := by
    norm_num [sqDevSum]
  have hstd : calculate_std_dev ⟨50, [1009/1000, 1], [1, 1]⟩ = some (1/100) := by
    unfold calculate_std_dev
    rw [if_neg (by simp), hvwap]
    simp only []
    rw [hsq, htot]
    rw [show (81/1000000 / 2 : ℚ) = 81/2000000 by norm_num]
    have hc : ((81/2000000 : ℚ) : ℝ) = 81/2000000 := by norm_num
    rw [hc]
    unfold round2R
    have hge0 : ((0 : ℤ) : ℝ) ≤ Real.sqrt (81/2000000) * 100 := by
      push_cast
      positivity
    have hlt : Real.sqrt (81/2000000) * 100 < (0 : ℤ) + 1 := by
      push_cast
      have hs : Real.sqrt (81/2000000) < 1/100 :=
        (Real.sqrt_lt' (by norm_num : (0:ℝ) < 1/100)).mpr
          (by norm_num : (81:ℝ)/2000000 < (1/100)^2)
      linarith
    have hge : (1:ℝ)/2 < Real.sqrt (81/2000000) * 100 - (0 : ℤ) := by
      push_cast
      have hs : (1:ℝ)/200 < Real.sqrt (81/2000000) :=
        (Real.lt_sqrt (by norm_num : (0:ℝ) ≤ 1/200)).mpr
          (by norm_num : ((1:ℝ)/200)^2 < 81/2000000)
      linarith
    rw [rheR_eq_high hge0 hlt hge]
    norm_num
  have hsqf : sqDevSum ⟨50, [1009/1000, 1], [1, 1]⟩ (2009/2000) = 81/2000000 := by
    norm_num [sqDevSum]
  have hfull : std_dev_full_precision ⟨50, [1009/1000, 1], [1, 1]⟩ = some 0 := by
    unfold std_dev_full_precision
    rw [if_neg (by simp), if_neg (by decide), htpv, htot]
    rw [show (2009/1000 / 2 : ℚ) = 2009/2000 by norm_num]
    rw [hsqf]
    rw [show (81/2000000 / 2 : ℚ) = 81/4000000 by norm_num]
    have hc : ((81/4000000 : ℚ) : ℝ) = ((9:ℝ)/2000)^2 := by norm_num
    rw [hc, Real.sqrt_sq (by norm_num : (0:ℝ) ≤ 9/2000)]
    rw [round2R_eq_zero (by norm_num) (by norm_num)]
  refine ⟨by simp, by decide, hstd, hfull, ?_⟩
  intro hcontra
  rw [Option.some_inj] at hcontra
  norm_num at hcontra

/-- Fold invariant for the rolling histories: after feeding any bar sequence
into a fresh calculator, both histories are exactly the last
`lookback_periods` entries of the fed sequence. -/
theorem processBars_histories (L : Nat) :
    ∀ (bs : List (ℚ × ℤ)),
      (processBars (VWAPCalculator.init L) bs).lookback_periods = L ∧
      (processBars (VWAPCalculator.init L) bs).price_history
        = (bs.map Prod.fst).drop (bs.length - L) ∧
      (processBars (VWAPCalculator.init L) bs).volume_history
        = (bs.map Prod.snd).drop (bs.length - L) := by
  intro bs
  induction bs using List.reverseRecOn with
  | nil =>
    refine ⟨rfl, ?_, ?_⟩ <;> simp [processBars, VWAPCalculator.init]
  | append_singleton l x ih =>
    obtain ⟨hlb, hp, hv⟩ := ih
    have hstep : processBars (VWAPCalculator.init L) (l ++ [x])
        = add_bar (processBars (VWAPCalculator.init L) l) x.1 x.2 := by
      unfold processBars
      rw [List.foldl_append]
      rfl
    rw [hstep]
    unfold add_bar
    simp only []
    rw [hlb, hp, hv]
    have hlenA : (l.map Prod.fst).length = l.length := List.length_map _ _
    have hlenB : (l.map Prod.snd).length = l.length := List.length_map _ _
    have hlen2 : (l ++ [x]).length = l.length + 1 := by simp
    have hmapA : (l ++ [x]).map Prod.fst = l.map Prod.fst ++ [x.1] := by simp
    have hmapB : (l ++ [x]).map Prod.snd = l.map Prod.snd ++ [x.2] := by simp
    by_cases hLn : L ≤ l.length
    · have hcond : L < ((l.map Prod.fst).drop (l.length - L) ++ [x.1]).length := by
        rw [List.length_append, List.length_drop, hlenA]
        simp only [List.length_cons, List.length_nil]
        omega
      rw [if_pos hcond]
      refine ⟨rfl, ?_, ?_⟩
      · show ((l.map Prod.fst).drop (l.length - L) ++ [x.1]).tail
            = ((l ++ [x]).map Prod.fst).drop ((l ++ [x]).length - L)
        rw [hmapA, hlen2, ← hlenA]
        exact drop_window_step _ x.1 L (by rw [hlenA]; omega)
      · show ((l.map Prod.snd).drop (l.length - L) ++ [x.2]).tail
            = ((l ++ [x]).map Prod.snd).drop ((l ++ [x]).length - L)
        rw [hmapB, hlen2, ← hlenB]
        exact drop_window_step _ x.2 L (by rw [hlenB]; omega)
    · have hcond : ¬ L < ((l.map Prod.fst).drop (l.length - L) ++ [x.1]).length := by
        rw [List.length_append, List.length_drop, hlenA]
        simp only [List.length_cons, List.length_nil]
        omega
      rw [if_neg hcond]
      have hz : l.length - L = 0 := by omega
      have hz2 : (l ++ [x]).length - L = 0 := by
        rw [hlen2]
        omega
      refine ⟨rfl, ?_, ?_⟩
      · show (l.map Prod.fst).drop (l.length - L) ++ [x.1]
            = ((l ++ [x]).map Prod.fst).drop ((l ++ [x]).length - L)
        rw [hmapA, hz, hz2, List.drop_zero, List.drop_zero]
      · show (l.map Prod.snd).drop (l.length - L) ++ [x.2]
            = ((l ++ [x]).map Prod.snd).drop ((l ++ [x]).length - L)
        rw [hmapB, hz, hz2, List.drop_zero, List.drop_zero]

/-- C8: for every lookback bound and every bar sequence fed to a fresh
calculator, both histories hold exactly the LAST `lookback_periods` fed
samples: their lengths never exceed the bound, and when the bound is reached
the oldest sample is the one evicted. -/
theorem history_window_bounded (L : Nat) (bars : List (ℚ × ℤ)) :
    (processBars (VWAPCalculator.init L) bars).price_history
      = (bars.map Prod.fst).drop (bars.length - L) ∧
    (processBars (VWAPCalculator.init L) bars).volume_history
      = (bars.map Prod.snd).drop (bars.length - L) ∧
    (processBars (VWAPCalculator.init L) bars).price_history.length ≤ L ∧
    (processBars (VWAPCalculator.init L) bars).volume_history.length ≤ L := by
  obtain ⟨-, hp, hv⟩ := processBars_histories L bars
  refine ⟨hp, hv, ?_, ?_⟩
  · rw [hp, List.length_drop, List.length_map]
    omega
  · rw [hv, List.length_drop, List.length_map]
    omega

/-- C4 counterexample: ticks priced below the sanity band (50) or
non-positive (-5) pass `forward_tick` unchanged and are forwarded — the tick
path drops only NaN prices; no band or positivity check exists on it. -/
theorem forward_tick_out_of_band_counterexample :
    (50 : ℚ) < 1000 ∧
    forward_tick ⟨some 50, none, none, none, none, none, none⟩ ≠ none ∧
    (-5 : ℚ) ≤ 0 ∧
    forward_tick ⟨some (-5), none, none, none, none, none, none⟩ ≠ none := by
  refine ⟨by norm_num, ?_, by norm_num, ?_⟩ <;> simp [forward_tick]

/-- C4 (amended): the tick-forwarding path drops a tick exactly when it
carries no valid price (both `last` and `close` are NaN); finite non-positive
or out-of-band prices are forwarded.  The [1000, 15000] sanity band is
enforced only on the ENTRY price in the portfolio-update path, which blocks
the whole update when a nonzero entry price falls outside the band. -/
theorem tick_drop_and_entry_band :
    (∀ t : Ticker, forward_tick t = none ↔ (t.last = none ∧ t.close = none)) ∧
    (∀ (e lp : ℚ) (pos : ℤ) (pnl : ℚ), e ≠ 0 → (e < 1000 ∨ 15000 < e) →
      forward_portfolio_update (some e) lp pos pnl = none) := by
  constructor
  · intro t
    unfold forward_tick
    rcases hl : t.last with _ | x
    · rcases hc : t.close with _ | y
      · simp [hl, hc]
      · simp [hl, hc]
    · simp [hl]
  · intro e lp pos pnl he hband
    unfold forward_portfolio_update
    simp [he, hband]

/-- Witness for `tick_drop_and_entry_band`: the all-NaN ticker is dropped,
and a nonzero entry price of 50 (below the band) blocks the portfolio
update. -/
theorem tick_drop_and_entry_band_witness :
    forward_tick ⟨none, none, none, none, none, none, none⟩ = none ∧
    ((50 : ℚ) ≠ 0 ∧ ((50 : ℚ) < 1000 ∨ (15000 : ℚ) < 50)) ∧
    forward_portfolio_update (some 50) 0 0 0 = none :=
  ⟨(tick_drop_and_entry_band.1 ⟨none, none, none, none, none, none, none⟩).mpr
      ⟨rfl, rfl⟩,
    ⟨by norm_num, Or.inl (by norm_num)⟩,
    tick_drop_and_entry_band.2 50 0 0 0 (by norm_num) (Or.inl (by norm_num))⟩
